import Mathlib

/-!
Verification of the broadcast chat relay (`src/main.rs`).

The program is a small fan-out relay built on a multi-producer
multi-consumer broadcast channel of fixed capacity.  We embed:

* the `Message` form type with its field validations,
* the broadcast channel semantics (publish history, per-receiver
  cursor, lag detection) used by the program,
* the `events` stream-session loop (the `select!` race between
  `rx.recv()` and the shutdown future, and the `match` on the
  receive result),
* the `post` publish endpoint.
-/

namespace Chat

/-- The `Message` struct from `src/main.rs`: fields `room`, `username`
and `message`, all text. -/
structure Message where
  room : String
  username : String
  message : String
  deriving Repr, DecidableEq

/-- Field validation `#[field(validate = len(..30))]` on `room`:
the length must lie in the half-open range `..30`, i.e. be strictly
below 30. -/
def validRoom (s : String) : Bool := s.length < 30

/-- Field validation `#[field(validate = len(..20))]` on `username`:
the length must lie in the half-open range `..20`, i.e. be strictly
below 20. -/
def validUsername (s : String) : Bool := s.length < 20

/-- A form parses into a `Message` iff both validated fields are in
range; the `message` field carries no validation attribute. -/
def validateMessage (m : Message) : Bool :=
  validRoom m.room && validUsername m.username

/-- The result of `rx.recv()` once it resolves, mirroring
`Result<Message, RecvError>` from the tokio broadcast channel:
`Ok(msg)`, `Err(RecvError::Closed)` or `Err(RecvError::Lagged(n))`. -/
inductive RecvResult where
  | ok (m : Message)
  | closed
  | lagged (n : Nat)
  deriving Repr, DecidableEq

/-- A call to `rx.recv()` either resolves to a `RecvResult` or stays
pending (the receiver is caught up and some sender is still alive). -/
inductive RecvOutcome where
  | ready (r : RecvResult)
  | pending
  deriving Repr, DecidableEq

/-- Modelled from the spec: the broadcast channel's receive semantics
(the channel itself is the external `tokio::sync::broadcast` library,
not part of `src/`).  The channel retains the most recent `cap` of the
`hist` messages published so far; a receiver holds a cursor `c` into
`hist`.  If the receiver is caught up it is pending (or sees `Closed`
when every sender is gone); if its next message is still retained it
reads it and advances; if it has fallen more than `cap` behind it gets
`Lagged(n)` with `n` the number of skipped messages and its cursor
jumps to the oldest retained message. -/
def recv (cap : Nat) (closed : Bool) (hist : List Message) (c : Nat) :
    RecvOutcome × Nat :=
  if hc : c < hist.length then
    if hist.length - c ≤ cap then
      (.ready (.ok (hist.get ⟨c, hc⟩)), c + 1)
    else
      (.ready (.lagged (hist.length - cap - c)), hist.length - cap)
  else if closed then (.ready .closed, c) else (.pending, c)

/-- What one iteration of the `events` loop does with a resolved
receive. -/
inductive LoopOutcome where
  | yieldMsg (m : Message)
  | breakLoop
  | continueLoop
  deriving Repr, DecidableEq

/-- The `match` on `rx.recv()`'s result inside the `events` loop:
`Ok(msg) => msg` (which the loop then yields as a JSON event),
`Err(RecvError::Closed) => break`,
`Err(RecvError::Lagged(_)) => continue`. -/
def handleRecv : RecvResult → LoopOutcome
  | .ok m => .yieldMsg m
  | .closed => .breakLoop
  | .lagged _ => .continueLoop

/-- How a session ends (or fails to end) after a bounded number of
loop iterations: `terminated` means the loop hit a `break`;
`suspended` means the session is parked awaiting the next message. -/
inductive SessionEnd where
  | terminated
  | suspended
  deriving Repr, DecidableEq

/-- Run the `events` loop against a fixed publish history `hist` from
cursor `c`, for at most `fuel` iterations: each iteration resolves
`rx.recv()` with `recv` and dispatches on `handleRecv` exactly as the
loop body does, collecting the yielded events and reporting how the
session ended.  Exhausted fuel is reported as `suspended`. -/
def runLoop (cap : Nat) (closed : Bool) (hist : List Message) :
    Nat → Nat → List Message × SessionEnd
  | 0, _ => ([], .suspended)
  | fuel + 1, c =>
    match recv cap closed hist c with
    | (.pending, _) => ([], .suspended)
    | (.ready r, c') =>
      match handleRecv r with
      | .yieldMsg m =>
        let t := runLoop cap closed hist fuel c'
        (m :: t.1, t.2)
      | .breakLoop => ([], .terminated)
      | .continueLoop => runLoop cap closed hist fuel c'

/-- The events a session starting at cursor `c` delivers before
catching up with a fixed history `hist` on an open channel.
`hist.length + 1` iterations always suffice to catch up. -/
def sessionRun (cap : Nat) (hist : List Message) (c : Nat) : List Message :=
  (runLoop cap false hist (hist.length + 1) c).1

/-- `subscribe()` on the channel: the new receiver's cursor starts at
"now", i.e. just past every message published so far. -/
def subscribe (hist : List Message) : Nat := hist.length

/-- `SendError` from the broadcast channel: a send fails exactly when
no receiver is registered. -/
inductive SendError where
  | noSubscribers
  deriving Repr, DecidableEq

/-- Modelled from the spec: `Sender::send` on the broadcast channel
(external library).  With at least one of the `nsubs` receivers
registered the message is appended to the publish history and the
receiver count is returned; with none the message is dropped and
`SendError` is returned. -/
def send (nsubs : Nat) (hist : List Message) (m : Message) :
    List Message × Except SendError Nat :=
  if nsubs = 0 then (hist, .error .noSubscribers)
  else (hist ++ [m], .ok nsubs)

/-- The HTTP-level outcome of the `post` handler.  Its Rust return
type is `()`, so the route unconditionally responds with success. -/
inductive PostResponse where
  | success
  deriving Repr, DecidableEq

/-- The `post` handler: `let _res = queue.send(form.into_inner());` —
one send on the channel, its result discarded, and the handler
returns `()` (success) to the client. -/
def post (nsubs : Nat) (hist : List Message) (m : Message) :
    List Message × PostResponse :=
  ((send nsubs hist m).1, .success)

/-- One interleaving step in a dynamic run: a producer publishes a
message, the session's `select!` resolves with the receive branch
winning, or it resolves with the shutdown branch winning. -/
inductive TraceStep where
  | publish (m : Message)
  | recvStep
  | shutdownStep
  deriving Repr, DecidableEq

/-- The messages published along a trace, in order. -/
def published : List TraceStep → List Message
  | [] => []
  | .publish m :: rest => m :: published rest
  | _ :: rest => published rest

/-- Run the `events` loop against a dynamic interleaving of publishes
and loop wake-ups.  `publish` appends to the history; `recvStep`
resolves the receive branch of the `select!` and dispatches on
`handleRecv` as the loop body does (a pending receive just keeps
waiting); `shutdownStep` is the shutdown future winning the race,
`_ = &mut end => break`.  Returns the events delivered to the client. -/
def runTrace (cap : Nat) :
    List TraceStep → List Message → Nat → List Message
  | [], _, _ => []
  | .publish m :: rest, hist, c => runTrace cap rest (hist ++ [m]) c
  | .shutdownStep :: _, _, _ => []
  | .recvStep :: rest, hist, c =>
    match recv cap false hist c with
    | (.pending, _) => runTrace cap rest hist c
    | (.ready r, c') =>
      match handleRecv r with
      | .yieldMsg m => m :: runTrace cap rest hist c'
      | .breakLoop => []
      | .continueLoop => runTrace cap rest hist c'

/-! ### Basic facts about the channel model -/

/-- A caught-up receiver on an open channel is pending. -/
theorem recv_pending (cap : Nat) (hist : List Message) (c : Nat)
    (h : hist.length ≤ c) : recv cap false hist c = (.pending, c) := by
  unfold recv
  rw [dif_neg (by omega)]
  rfl

/-- A caught-up receiver on a closed channel sees `Closed`. -/
theorem recv_closed (cap : Nat) (hist : List Message) (c : Nat)
    (h : hist.length ≤ c) : recv cap true hist c = (.ready .closed, c) := by
  unfold recv
  rw [dif_neg (by omega)]
  rfl

/-- A receiver whose next message is still retained reads it and
advances one position. -/
theorem recv_ok (cap : Nat) (closed : Bool) (hist : List Message) (c : Nat)
    (hc : c < hist.length) (hcap : hist.length - c ≤ cap) :
    recv cap closed hist c = (.ready (.ok (hist.get ⟨c, hc⟩)), c + 1) := by
  unfold recv
  rw [dif_pos hc, if_pos hcap]

/-- A receiver more than `cap` messages behind sees `Lagged` with the
skip count and jumps to the oldest retained message. -/
theorem recv_lagged (cap : Nat) (closed : Bool) (hist : List Message) (c : Nat)
    (hc : c < hist.length) (hcap : cap < hist.length - c) :
    recv cap closed hist c
      = (.ready (.lagged (hist.length - cap - c)), hist.length - cap) := by
  unfold recv
  rw [dif_pos hc, if_neg (by omega)]

/-- A caught-up session on an open channel suspends, delivering
nothing. -/
theorem runLoop_caughtUp (cap : Nat) (hist : List Message) (fuel c : Nat)
    (h : hist.length ≤ c) : runLoop cap false hist fuel c = ([], .suspended) := by
  cases fuel with
  | zero => rfl
  | succ n => simp [runLoop, recv_pending cap hist c h]

/-- With enough fuel and no lag pending, the session delivers exactly
the tail of the history from its cursor, then suspends. -/
theorem runLoop_drop (cap : Nat) (hist : List Message) :
    ∀ fuel c, hist.length - c < fuel → hist.length - c ≤ cap →
      runLoop cap false hist fuel c = (hist.drop c, .suspended) := by
  intro fuel
  induction fuel with
  | zero => intro c hf _; exact absurd hf (Nat.not_lt_zero _)
  | succ n ih =>
    intro c hf hcap
    by_cases hc : c < hist.length
    · simp only [runLoop, recv_ok cap false hist c hc hcap, handleRecv]
      rw [ih (c + 1) (by omega) (by omega)]
      rw [List.drop_eq_getElem_cons hc]
      simp [List.get_eq_getElem]
    · rw [runLoop_caughtUp cap hist (n + 1) c (by omega)]
      rw [List.drop_eq_nil_of_le (by omega)]

/-- A lagging iteration consumes one unit of fuel, yields nothing and
re-enters the loop at the oldest retained message. -/
theorem runLoop_lagStep (cap : Nat) (closed : Bool) (hist : List Message)
    (fuel c : Nat) (hc : c < hist.length) (h : cap < hist.length - c) :
    runLoop cap closed hist (fuel + 1) c
      = runLoop cap closed hist fuel (hist.length - cap) := by
  simp [runLoop, recv_lagged cap closed hist c hc h, handleRecv]

/-- A session with no lag pending delivers the tail of the history
from its cursor. -/
theorem sessionRun_eq_drop (cap : Nat) (hist : List Message) (c : Nat)
    (hcap : hist.length - c ≤ cap) : sessionRun cap hist c = hist.drop c := by
  unfold sessionRun
  rw [runLoop_drop cap hist (hist.length + 1) c (by omega) hcap]

/-- A lagging session delivers exactly what a session restarted at the
oldest retained message delivers. -/
theorem sessionRun_lag (cap : Nat) (hist : List Message) (c : Nat)
    (h : cap < hist.length - c) :
    sessionRun cap hist c = sessionRun cap hist (hist.length - cap) := by
  have hc : c < hist.length := by omega
  unfold sessionRun
  rw [runLoop_lagStep cap false hist hist.length c hc h]
  rw [runLoop_drop cap hist hist.length (hist.length - cap) (by omega) (by omega)]
  rw [runLoop_drop cap hist (hist.length + 1) (hist.length - cap) (by omega) (by omega)]

/-- Whatever the lag situation, a session delivers a suffix of the
history past its cursor: nothing out of order, nothing twice, nothing
from before the cursor. -/
theorem sessionRun_sublist_drop (cap : Nat) (hist : List Message) (c : Nat) :
    (sessionRun cap hist c).Sublist (hist.drop c) := by
  by_cases h : hist.length - c ≤ cap
  · rw [sessionRun_eq_drop cap hist c h]
  · rw [sessionRun_lag cap hist c (by omega)]
    rw [sessionRun_eq_drop cap hist (hist.length - cap) (by omega)]
    have hdd : hist.drop (hist.length - cap)
        = (hist.drop c).drop (hist.length - cap - c) := by
      rw [List.drop_drop]
      congr 1
      omega
    rw [hdd]
    exact List.drop_sublist _ _

/-- An element of the history at or past the cursor is among the
dropped-to tail. -/
theorem get_mem_drop (hist : List Message) (c i : Nat) (hci : c ≤ i)
    (hi : i < hist.length) : hist.get ⟨i, hi⟩ ∈ hist.drop c := by
  have h1 : i - c < (hist.drop c).length := by
    rw [List.length_drop]
    omega
  refine List.mem_iff_getElem.mpr ⟨i - c, h1, ?_⟩
  rw [List.getElem_drop]
  have hidx : c + (i - c) = i := by omega
  simp [hidx, List.get_eq_getElem]

/-! ### Facts about dynamic traces -/

/-- A wake-up of a caught-up receiver delivers nothing and leaves the
cursor in place. -/
theorem runTrace_recv_pending (cap : Nat) (rest : List TraceStep)
    (hist : List Message) (c : Nat) (h : hist.length ≤ c) :
    runTrace cap (.recvStep :: rest) hist c = runTrace cap rest hist c := by
  simp [runTrace, recv_pending cap hist c h]

/-- A wake-up with the next message retained yields it and advances. -/
theorem runTrace_recv_ok (cap : Nat) (rest : List TraceStep)
    (hist : List Message) (c : Nat) (hc : c < hist.length)
    (hcap : hist.length - c ≤ cap) :
    runTrace cap (.recvStep :: rest) hist c
      = hist.get ⟨c, hc⟩ :: runTrace cap rest hist (c + 1) := by
  simp [runTrace, recv_ok cap false hist c hc hcap, handleRecv]

/-- A wake-up of a lagging receiver yields nothing and skips forward
to the oldest retained message. -/
theorem runTrace_recv_lag (cap : Nat) (rest : List TraceStep)
    (hist : List Message) (c : Nat) (hc : c < hist.length)
    (hcap : cap < hist.length - c) :
    runTrace cap (.recvStep :: rest) hist c
      = runTrace cap rest hist (hist.length - cap) := by
  simp [runTrace, recv_lagged cap false hist c hc hcap, handleRecv]

/-- Along any interleaving of publishes, wake-ups and shutdown, what
the session delivers is a sublist — same order, no duplicates — of
the history past its cursor plus whatever gets published. -/
theorem runTrace_sublist (cap : Nat) :
    ∀ (steps : List TraceStep) (hist : List Message) (c : Nat),
      (runTrace cap steps hist c).Sublist (((hist ++ published steps).drop c)) := by
  intro steps
  induction steps with
  | nil =>
    intro hist c
    exact List.nil_sublist _
  | cons s rest ih =>
    intro hist c
    cases s with
    | publish m =>
      show (runTrace cap rest (hist ++ [m]) c).Sublist _
      have h := ih (hist ++ [m]) c
      rw [List.append_assoc] at h
      simpa [published] using h
    | shutdownStep =>
      exact List.nil_sublist _
    | recvStep =>
      by_cases hc : c < hist.length
      · by_cases hcap : hist.length - c ≤ cap
        · rw [runTrace_recv_ok cap rest hist c hc hcap]
          have hlt : c < (hist ++ published rest).length := by
            rw [List.length_append]
            omega
          have hpub : published (TraceStep.recvStep :: rest) = published rest := rfl
          rw [hpub, List.drop_eq_getElem_cons hlt]
          have hg : (hist ++ published rest)[c] = hist.get ⟨c, hc⟩ := by
            rw [List.getElem_append_left hc]
            simp [List.get_eq_getElem]
          rw [hg]
          exact List.Sublist.cons₂ _ (ih hist (c + 1))
        · rw [runTrace_recv_lag cap rest hist c hc (by omega)]
          have hpub : published (TraceStep.recvStep :: rest) = published rest := rfl
          rw [hpub]
          refine (ih hist (hist.length - cap)).trans ?_
          have hdd : (hist ++ published rest).drop (hist.length - cap)
              = ((hist ++ published rest).drop c).drop (hist.length - cap - c) := by
            rw [List.drop_drop]
            congr 1
            omega
          rw [hdd]
          exact List.drop_sublist _ _
      · rw [runTrace_recv_pending cap rest hist c (by omega)]
        exact ih hist c

/-- Once the shutdown branch of the race wins, nothing after it in the
trace can influence what the session delivered. -/
theorem runTrace_shutdown_tail (cap : Nat) :
    ∀ (pre post : List TraceStep) (hist : List Message) (c : Nat),
      runTrace cap (pre ++ .shutdownStep :: post) hist c
        = runTrace cap (pre ++ [.shutdownStep]) hist c := by
  intro pre
  induction pre with
  | nil =>
    intro post hist c
    rfl
  | cons s rest ih =>
    intro post hist c
    cases s with
    | publish m =>
      show runTrace cap (rest ++ .shutdownStep :: post) (hist ++ [m]) c = _
      exact ih post (hist ++ [m]) c
    | shutdownStep =>
      rfl
    | recvStep =>
      by_cases hc : c < hist.length
      · by_cases hcap : hist.length - c ≤ cap
        · rw [List.cons_append, List.cons_append,
            runTrace_recv_ok cap (rest ++ TraceStep.shutdownStep :: post) hist c hc hcap,
            runTrace_recv_ok cap (rest ++ [TraceStep.shutdownStep]) hist c hc hcap,
            ih post hist (c + 1)]
        · rw [List.cons_append, List.cons_append,
            runTrace_recv_lag cap (rest ++ TraceStep.shutdownStep :: post) hist c hc (by omega),
            runTrace_recv_lag cap (rest ++ [TraceStep.shutdownStep]) hist c hc (by omega),
            ih post hist (hist.length - cap)]
      · rw [List.cons_append, List.cons_append,
          runTrace_recv_pending cap (rest ++ TraceStep.shutdownStep :: post) hist c (by omega),
          runTrace_recv_pending cap (rest ++ [TraceStep.shutdownStep]) hist c (by omega),
          ih post hist c]

/-! ### Sample data shared by the concrete instantiations -/

/-- A sample message. -/
def mA : Message := ⟨"lobby", "alice", "hi"⟩

/-- A sample message. -/
def mB : Message := ⟨"lobby", "bob", "yo"⟩

/-- A sample message. -/
def mC : Message := ⟨"lobby", "carol", "hey"⟩

/-- A sample message. -/
def mD : Message := ⟨"lobby", "dave", "sup"⟩

/-- A sample message. -/
def mE : Message := ⟨"lobby", "erin", "ok"⟩

/-- A sample publish history of five messages. -/
def hist5 : List Message := [mA, mB, mC, mD, mE]

/-! ### The claims -/

/-- C1: receiving a Lagged indication is non-fatal: the loop body maps
it to `continue` (the session does not terminate and discards the
indication), a subscriber more than `cap` messages behind gets the
Lagged indication on its next read, the session's deliveries are
unchanged by the lag hand-off, and from the oldest retained message on
it receives the subsequent messages in order. -/
theorem lagged_nonfatal (cap c n : Nat) (hist : List Message)
    (h : cap < hist.length - c) :
    handleRecv (.lagged n) = .continueLoop ∧
    recv cap false hist c
      = (.ready (.lagged (hist.length - cap - c)), hist.length - cap) ∧
    sessionRun cap hist c = sessionRun cap hist (hist.length - cap) ∧
    sessionRun cap hist (hist.length - cap)
      = hist.drop (hist.length - cap) := by
  have hc : c < hist.length := by omega
  refine ⟨rfl, recv_lagged cap false hist c hc h, sessionRun_lag cap hist c h, ?_⟩
  exact sessionRun_eq_drop cap hist (hist.length - cap) (by omega)

/-- Witness for C1: capacity 2, five published messages, a fresh
cursor at 0 is three messages past the retained window. -/
theorem lagged_nonfatal_witness :
    2 < hist5.length - 0 ∧
    (handleRecv (.lagged 3) = .continueLoop ∧
     recv 2 false hist5 0
       = (.ready (.lagged (hist5.length - 2 - 0)), hist5.length - 2) ∧
     sessionRun 2 hist5 0 = sessionRun 2 hist5 (hist5.length - 2) ∧
     sessionRun 2 hist5 (hist5.length - 2) = hist5.drop (hist5.length - 2)) :=
  ⟨by decide, lagged_nonfatal 2 0 3 hist5 (by decide)⟩

/-- C2: receiving a Closed indication is fatal for the session: a
caught-up receiver on a channel whose senders are all gone resolves to
`Closed`, the loop body maps `Closed` to `break`, and the session ends
`terminated` delivering no further message and no error event (its
output list is empty). -/
theorem closed_fatal (cap fuel c : Nat) (hist : List Message)
    (h : hist.length ≤ c) :
    recv cap true hist c = (.ready .closed, c) ∧
    handleRecv .closed = .breakLoop ∧
    runLoop cap true hist (fuel + 1) c = ([], .terminated) := by
  refine ⟨recv_closed cap hist c h, rfl, ?_⟩
  simp [runLoop, recv_closed cap hist c h, handleRecv]

/-- Witness for C2: a session that has consumed all five messages of
the history on a closed channel. -/
theorem closed_fatal_witness :
    hist5.length ≤ 5 ∧
    (recv 1024 true hist5 5 = (.ready .closed, 5) ∧
     handleRecv .closed = .breakLoop ∧
     runLoop 1024 true hist5 (0 + 1) 5 = ([], .terminated)) :=
  ⟨by decide, closed_fatal 1024 0 5 hist5 (by decide)⟩

/-- C3: along any interleaving of publishes and loop wake-ups, the
messages a subscriber receives are a sublist — publish order kept, no
duplication — of the published sequence; and when no lag occurs (the
history fits in the capacity) there is no gap at all: the subscriber
receives exactly the published messages. -/
theorem delivery_subsequence (cap : Nat) (steps : List TraceStep)
    (hist : List Message) (h : hist.length ≤ cap) :
    (runTrace cap steps [] 0).Sublist (published steps) ∧
    sessionRun cap hist 0 = hist := by
  constructor
  · simpa using runTrace_sublist cap steps [] 0
  · simpa using sessionRun_eq_drop cap hist 0 (by omega)

/-- Witness for C3: a five-message history within the capacity 1024,
and a concrete publish/wake-up interleaving. -/
theorem delivery_subsequence_witness :
    hist5.length ≤ 1024 ∧
    ((runTrace 1024 [.publish mA, .recvStep, .publish mB, .recvStep, .recvStep]
        [] 0).Sublist
      (published [.publish mA, .recvStep, .publish mB, .recvStep, .recvStep]) ∧
     sessionRun 1024 hist5 0 = hist5) :=
  ⟨by decide,
   delivery_subsequence 1024
     [.publish mA, .recvStep, .publish mB, .recvStep, .recvStep] hist5 (by decide)⟩

/-- C4: when the shutdown branch of the race wins, the session
terminates no matter what stage the message race was in: nothing after
the shutdown influences what was delivered, and a session hitting
shutdown — even mid-wait with messages pending — delivers nothing
further (no spurious or duplicate final message). -/
theorem shutdown_terminates (cap : Nat) (pre post post' : List TraceStep)
    (hist : List Message) (c : Nat) :
    runTrace cap (pre ++ .shutdownStep :: post) hist c
      = runTrace cap (pre ++ .shutdownStep :: post') hist c ∧
    runTrace cap (.shutdownStep :: post) hist c = [] := by
  refine ⟨?_, rfl⟩
  rw [runTrace_shutdown_tail cap pre post hist c,
    runTrace_shutdown_tail cap pre post' hist c]

/-- C5: for every validated Message, the publish endpoint performs the
channel send exactly once (its channel effect is that one send) and
unconditionally reports success, including with zero subscribers,
where the send itself errs with `NoSubscribers` and the error is
discarded. -/
theorem post_unconditional_success (nsubs : Nat) (hist : List Message)
    (m : Message) (_h : validateMessage m = true) :
    post nsubs hist m = ((send nsubs hist m).1, .success) ∧
    (post 0 hist m).2 = .success ∧
    (send 0 hist m).2 = .error .noSubscribers :=
  ⟨rfl, rfl, rfl⟩

/-- Witness for C5: a valid message posted with zero subscribers. -/
theorem post_unconditional_success_witness :
    validateMessage mA = true ∧
    (post 0 [] mA = ((send 0 [] mA).1, .success) ∧
     (post 0 [] mA).2 = .success ∧
     (send 0 [] mA).2 = .error .noSubscribers) :=
  ⟨by decide, post_unconditional_success 0 [] mA (by decide)⟩

/-- C6: with two subscribers A and B registered (cursors at or before
a published message, neither lagging), both receive that message, and
each one's deliveries are a sublist of the publish history — so both
observe all messages published after their registration in the same
relative order. -/
theorem broadcast_to_all (cap cA cB i : Nat) (hist : List Message)
    (hA : hist.length - cA ≤ cap) (hB : hist.length - cB ≤ cap)
    (hiA : cA ≤ i) (hiB : cB ≤ i) (hi : i < hist.length) :
    hist.get ⟨i, hi⟩ ∈ sessionRun cap hist cA ∧
    hist.get ⟨i, hi⟩ ∈ sessionRun cap hist cB ∧
    (sessionRun cap hist cA).Sublist hist ∧
    (sessionRun cap hist cB).Sublist hist := by
  rw [sessionRun_eq_drop cap hist cA hA, sessionRun_eq_drop cap hist cB hB]
  exact ⟨get_mem_drop hist cA i hiA hi, get_mem_drop hist cB i hiB hi,
    (List.drop_sublist _ _).trans (List.Sublist.refl _),
    (List.drop_sublist _ _).trans (List.Sublist.refl _)⟩

/-- Witness for C6: subscribers registered at cursors 0 and 1, both
receiving the message published at position 2. -/
theorem broadcast_to_all_witness :
    hist5.length - 0 ≤ 1024 ∧ hist5.length - 1 ≤ 1024 ∧ 0 ≤ 2 ∧ 1 ≤ 2 ∧
    (hist5.get ⟨2, by decide⟩ ∈ sessionRun 1024 hist5 0 ∧
     hist5.get ⟨2, by decide⟩ ∈ sessionRun 1024 hist5 1 ∧
     (sessionRun 1024 hist5 0).Sublist hist5 ∧
     (sessionRun 1024 hist5 1).Sublist hist5) :=
  ⟨by decide, by decide, by decide, by decide,
   broadcast_to_all 1024 0 1 2 hist5 (by decide) (by decide) (by decide)
     (by decide) (by decide)⟩

/-- C7: a subscription's cursor starts at the moment of registration:
whatever is published later, the session delivers a sublist of the
messages published after it subscribed — never one from before — and
a send with zero subscribers leaves the channel history untouched, so
it cannot be replayed to a later subscriber. -/
theorem subscribe_no_replay (cap : Nat) (hist later : List Message)
    (m : Message) :
    (send 0 hist m).1 = hist ∧
    (sessionRun cap (hist ++ later) (subscribe hist)).Sublist later := by
  refine ⟨rfl, ?_⟩
  have h := sessionRun_sublist_drop cap (hist ++ later) (subscribe hist)
  unfold subscribe at h
  rwa [List.drop_left] at h

/-- C8 counterexample: the claim admits a `room` of exactly 30
characters and a `username` of exactly 20, but `len(..30)` and
`len(..20)` are exclusive bounds: this form is rejected. -/
theorem room_len30_rejected :
    ("aaaaaaaaaaaaaaaaaaaaaaaaaaaaaa" : String).length ≤ 30 ∧
    ("bbbbbbbbbbbbbbbbbbbb" : String).length ≤ 20 ∧
    validateMessage ⟨"aaaaaaaaaaaaaaaaaaaaaaaaaaaaaa", "bob", "hi"⟩ = false ∧
    validateMessage ⟨"lobby", "bbbbbbbbbbbbbbbbbbbb", "hi"⟩ = false := by
  decide

/-- C8 amended: the publish form accepts `room` strictly below 30
characters (at most 29) and `username` strictly below 20 (at most 19),
with no length bound on the message body: every such form passes
validation whatever its message text. -/
theorem validate_strict_bounds (room username msg : String)
    (hr : room.length < 30) (hu : username.length < 20) :
    validateMessage ⟨room, username, msg⟩ = true := by
  simp [validateMessage, validRoom, validUsername, hr, hu]

/-- Witness for the amended C8: a 29-character room and a
19-character username pass. -/
theorem validate_strict_bounds_witness :
    ("aaaaaaaaaaaaaaaaaaaaaaaaaaaaa" : String).length < 30 ∧
    ("bbbbbbbbbbbbbbbbbbb" : String).length < 20 ∧
    validateMessage ⟨"aaaaaaaaaaaaaaaaaaaaaaaaaaaaa",
      "bbbbbbbbbbbbbbbbbbb", "hi"⟩ = true :=
  ⟨by decide, by decide,
   validate_strict_bounds "aaaaaaaaaaaaaaaaaaaaaaaaaaaaa"
     "bbbbbbbbbbbbbbbbbbb" "hi" (by decide) (by decide)⟩

/-- C9: validation enforces only upper length bounds: a message with
empty `room` and `username` (and any body) passes and is posted like
any other — one send, success reported — and validation depends only
on the field lengths, so no content restriction exists. -/
theorem empty_fields_valid (msg : String) (nsubs : Nat)
    (hist : List Message) (m₁ m₂ : Message)
    (hr : m₁.room.length = m₂.room.length)
    (hu : m₁.username.length = m₂.username.length) :
    validateMessage ⟨"", "", msg⟩ = true ∧
    post nsubs hist ⟨"", "", msg⟩
      = ((send nsubs hist ⟨"", "", msg⟩).1, .success) ∧
    validateMessage m₁ = validateMessage m₂ := by
  refine ⟨by simp [validateMessage, validRoom, validUsername], rfl, ?_⟩
  simp [validateMessage, validRoom, validUsername, hr, hu]

/-- Witness for C9: the empty-field form posted with zero
subscribers, and two distinct messages of equal field lengths. -/
theorem empty_fields_valid_witness :
    mA.room.length = mC.room.length ∧ mA.username.length = mC.username.length ∧
    (validateMessage ⟨"", "", "x"⟩ = true ∧
     post 0 [] ⟨"", "", "x"⟩ = ((send 0 [] ⟨"", "", "x"⟩).1, .success) ∧
     validateMessage mA = validateMessage mC) :=
  ⟨by decide, by decide,
   empty_fields_valid "x" 0 [] mA mC (by decide) (by decide)⟩

/-- C10: the skip count carried by a Lagged indication is discarded:
the loop body's outcome is `continue` whatever the count, it is never
a yield, and the wake-up that hits the lag adds no event of any kind
to the client's stream (the stream continues exactly as a session
skipped forward to the oldest retained message). -/
theorem lagged_count_discarded (cap c n n' : Nat) (m : Message)
    (hist : List Message) (rest : List TraceStep)
    (hc : c < hist.length) (hlag : cap < hist.length - c) :
    handleRecv (.lagged n) = .continueLoop ∧
    handleRecv (.lagged n) = handleRecv (.lagged n') ∧
    handleRecv (.lagged n) ≠ .yieldMsg m ∧
    runTrace cap (.recvStep :: rest) hist c
      = runTrace cap rest hist (hist.length - cap) := by
  refine ⟨rfl, rfl, by simp [handleRecv], ?_⟩
  exact runTrace_recv_lag cap rest hist c hc hlag

/-- Witness for C10: capacity 1, five messages published, cursor 0:
the lag wake-up emits nothing and skips to position 4. -/
theorem lagged_count_discarded_witness :
    0 < hist5.length ∧ 1 < hist5.length - 0 ∧
    (handleRecv (.lagged 2) = .continueLoop ∧
     handleRecv (.lagged 2) = handleRecv (.lagged 7) ∧
     handleRecv (.lagged 2) ≠ .yieldMsg mA ∧
     runTrace 1 [.recvStep] hist5 0
       = runTrace 1 [] hist5 (hist5.length - 1)) :=
  ⟨by decide, by decide,
   lagged_count_discarded 1 0 2 7 mA hist5 [] (by decide) (by decide)⟩

end Chat
